import Mathlib

/-!
Shallow embedding of the msmanager version tracker (msmanager.go, util.go).

The repository is a single-user CLI that keeps three pieces of persistent
state in a repository directory: an append-only labels table (one line per
label), an append-only versions table (one line per version record), and a
directory of gzip-compressed archive blobs keyed by the SHA-1 digest of the
archived bytes.  The working directory also holds the live working files.

We model the whole persistent state as a `State`: the two tables as lists of
parsed records (one list element per text line, in file order, exactly as the
Go code reads and rewrites them line by line), and the filesystem as an
association list from path to byte contents.  Archive blobs live in the same
filesystem under the path `msmanager-data/archives/<digest>.gz`, as in the
code.

Interactive inputs (the author email and the confirmation answer) and the
clock (`getDate`/`getTime`) are passed as explicit arguments.  `die`
(`os.Exit(1)` after printing) is modelled by a `fatal` result constructor
carrying the state at the moment of exit, so that partial mutations made
before a fatal exit are observable.
-/

namespace Msmanager

/-- Byte sequences (file contents) are lists of naturals. -/
abbrev Bytes := List Nat

/-- Model of the external `crypto/sha1` library used by `calculateSha1`
(util.go): a deterministic content digest, rendered as a string.  The actual
SHA-1 compression function is external to the repository; it is modelled as an
injective encoding of the byte sequence, which is exactly how the code treats
it (digest equality stands for content equality). -/
def sha1Hex (bs : Bytes) : String := "sha1-" ++ toString bs

/-- Model of the gzip magic header written by the external `compress/gzip`
library. -/
def gzipMagic : Bytes := [31, 139]

/-- Model of the external `compress/gzip` writer used by `compress`
(util.go): a reversible encoding that prepends the gzip header. -/
def gzipData (bs : Bytes) : Bytes := gzipMagic ++ bs

/-- Model of the external `compress/gzip` reader used by `decompress`
(util.go): inverts `gzipData`; fails (as `gzip.NewReader` does) when the
header is missing. -/
def gunzipData (bs : Bytes) : Option Bytes :=
  match bs with
  | 31 :: 139 :: rest => some rest
  | _ => none

/-- Path constant `ArchivesDir` from msmanager.go. -/
def ArchivesDir : String := "msmanager-data/archives"

/-- Path of an archive blob: `filepath.Join(ArchivesDir, id) + ".gz"`. -/
def archivePath (id : String) : String := ArchivesDir ++ "/" ++ id ++ ".gz"

/-- User initials constant from msmanager.go. -/
def UserInitials : String := "FD"

/-- One line of the labels table: `LABEL BASENAME` (readLabelsTable,
util.go). -/
structure LabelEntry where
  label : String
  basename : String
deriving Repr, DecidableEq

/-- One line of the versions table:
`DATE TIME LABEL VERSION ORIGFILE FILE AUTHOR ID` (struct `Version`,
msmanager.go). -/
structure Version where
  date : String
  time : String
  label : String
  versionNumber : Nat
  origFile : String
  file : String
  author : String
  id : String
deriving Repr, DecidableEq

/-- The zero value of the Go `Version` struct: what `undoUpdate`'s scan loop
leaves in `lastEntry` when the versions table has no lines. -/
def zeroVersion : Version := ⟨"", "", "", 0, "", "", "", ""⟩

/-- The filesystem: an association list from path to file bytes. -/
abbrev FS := List (String × Bytes)

/-- Contents of a file, `none` when the path does not exist (`os.Open` /
`os.Stat` failing with "no such file"). -/
def fsLookup (fs : FS) (name : String) : Option Bytes :=
  match fs with
  | [] => none
  | (n, b) :: rest => if n = name then some b else fsLookup rest name

/-- Create or truncate-and-write a file (`os.Create` semantics). -/
def fsWrite (fs : FS) (name : String) (data : Bytes) : FS :=
  match fs with
  | [] => [(name, data)]
  | (n, b) :: rest =>
      if n = name then (n, data) :: rest else (n, b) :: fsWrite rest name data

/-- Delete a file; removing an absent path is a no-op (`os.Remove` with the
error ignored, as in `undoUpdate` and `handlePreviousVersion`). -/
def fsRemove (fs : FS) (name : String) : FS :=
  match fs with
  | [] => []
  | (n, b) :: rest => if n = name then rest else (n, b) :: fsRemove rest name

/-- `os.Rename` with its error checked (`updateLabel`): fails when the source
path does not exist. -/
def fsRename (fs : FS) (oldName newName : String) : Option FS :=
  match fsLookup fs oldName with
  | none => none
  | some b => some (fsWrite (fsRemove fs oldName) newName b)

/-- `os.Rename` with its error ignored (`undoUpdate` line 454): a no-op when
the source path does not exist. -/
def fsRenameLax (fs : FS) (oldName newName : String) : FS :=
  match fsLookup fs oldName with
  | none => fs
  | some b => fsWrite (fsRemove fs oldName) newName b

/-- The whole persistent state: the two tables (as parsed lines, in file
order) and the filesystem (working files and archive blobs). -/
structure State where
  labels : List LabelEntry
  versions : List Version
  files : FS
deriving Repr, DecidableEq

/-- Result of an operation that either completes or hits `die` / `os.Exit(1)`
partway; `fatal` carries the state at the moment of exit. -/
inductive OpResult where
  | ok (s : State)
  | fatal (s : State) (msg : String)
deriving Repr, DecidableEq

/-- Result of `handlePreviousVersion`: on success also reports whether the
drift warning was printed. -/
inductive HPResult where
  | ok (s : State) (warned : Bool)
  | fatal (s : State) (msg : String)
deriving Repr, DecidableEq

/-- Result of `updateLabel`: completes, is declined at the confirmation
prompt ("Abort.", a non-error return), or dies.  The `ok` flag reports
whether the drift warning was printed. -/
inductive UpdateResult where
  | ok (s : State) (warned : Bool)
  | declined (s : State)
  | fatal (s : State) (msg : String)
deriving Repr, DecidableEq

/-- The labels map built by `readLabelsTable` (util.go): Go map assignment in
scan order, so a later line for the same label wins. -/
def lookupLabel (labels : List LabelEntry) (l : String) : Option String :=
  labels.foldl (fun acc e => if e.label = l then some e.basename else acc) none

/-- `getLastVersionNumber` (msmanager.go): scan the versions table keeping
the largest version number seen for the label, starting from 0. -/
def getLastVersionNumber (versions : List Version) (label : String) : Nat :=
  versions.foldl
    (fun acc e =>
      if e.label = label ∧ acc < e.versionNumber then e.versionNumber else acc)
    0

/-- The scan shared by `handlePreviousVersion` and `restoreLastVersion`
(msmanager.go): two string variables, initially empty, overwritten with the
id and filename of every record for the label, so they end holding the last
matching record's fields. -/
def scanPrev (versions : List Version) (label : String) : String × String :=
  versions.foldl (fun p e => if e.label = label then (e.id, e.file) else p)
    ("", "")

/-- `getOrigFilename` (msmanager.go): original filename of the first record
whose id matches; `none` models the "Can't find basename" `os.Exit(1)`. -/
def getOrigFilename (versions : List Version) (id : String) : Option String :=
  match versions with
  | [] => none
  | v :: rest => if v.id = id then some v.origFile else getOrigFilename rest id

/-- `compress` (util.go): open the input (failing if absent), then create the
output with the gzip encoding of the input bytes. -/
def compressOp (s : State) (inputFile outputFile : String) : OpResult :=
  match fsLookup s.files inputFile with
  | none => .fatal s ("open " ++ inputFile ++ ": no such file or directory")
  | some bs => .ok { s with files := fsWrite s.files outputFile (gzipData bs) }

/-- `decompress` (util.go): open the input (failing if absent), create the
output file, then read through the gzip header.  `os.Create` runs before
`gzip.NewReader`, so an invalid header leaves an empty output file behind. -/
def decompressOp (s : State) (inputFile outputFile : String) : OpResult :=
  match fsLookup s.files inputFile with
  | none => .fatal s ("open " ++ inputFile ++ ": no such file or directory")
  | some blob =>
      match gunzipData blob with
      | none =>
          .fatal { s with files := fsWrite s.files outputFile [] }
            "gzip: invalid header"
      | some bs => .ok { s with files := fsWrite s.files outputFile bs }

/-- `filepath.Base` for the slash-free and `dir/file` paths the program
handles: the characters after the last slash. -/
def fileBase (p : String) : String :=
  String.mk (p.data.foldl (fun acc c => if c = '/' then [] else acc ++ [c]) [])

/-- `filepath.Ext`: the suffix of the path's base element starting at its
final dot, empty when the base element has no dot. -/
def fileExt (p : String) : String :=
  match (fileBase p).data.foldl
      (fun acc c =>
        if c = '.' then some ['.']
        else match acc with
          | none => none
          | some cs => some (cs ++ [c])) none with
  | none => ""
  | some cs => String.mk cs

/-- The working-file name built by `updateLabel`:
`fmt.Sprintf("%s_%d_%s%s", basename, versionNumber, UserInitials,
filepath.Ext(origFile))`. -/
def newFileName (basename : String) (n : Nat) (origFile : String) : String :=
  basename ++ "_" ++ toString n ++ "_" ++ UserInitials ++ fileExt origFile

/-- `trackLabel` (msmanager.go): reject a duplicate label, else append one
labels-table line and one v0 sentinel versions-table line. -/
def trackLabel (s : State) (label basename date time : String) : OpResult :=
  if (lookupLabel s.labels label).isSome then
    .fatal s ("Label " ++ label ++ " already exists.")
  else
    .ok { s with
      labels := s.labels ++ [⟨label, basename⟩],
      versions :=
        s.versions ++ [⟨date, time, label, 0, "none", "none", "none", "none"⟩] }

/-- `handlePreviousVersion` (msmanager.go): find the last record for the
label; skip when its stored filename is the `none` sentinel; recompute the
digest of the previous working file (dying if it cannot be opened); on a
digest mismatch print the drift warning and keep the file, on a match remove
it. -/
def handlePreviousVersion (s : State) (label : String) : HPResult :=
  let prev := scanPrev s.versions label
  if prev.2 = "none" then .ok s false
  else
    match fsLookup s.files prev.2 with
    | none => .fatal s ("open " ++ prev.2 ++ ": no such file or directory")
    | some bs =>
        if sha1Hex bs ≠ prev.1 then .ok s true
        else .ok { s with files := fsRemove s.files prev.2 } false

/-- `updateLabel` (msmanager.go): look up the label's basename; read and
digest the input file; die on a duplicate archive entry; return without
mutation when confirmation is declined; compress into the archive; rename the
input to the new working-file name; run the drift check on the superseded
version; append the new record. -/
def updateLabel (s : State) (label origFile email : String) (confirm : Bool)
    (date time : String) : UpdateResult :=
  match lookupLabel s.labels label with
  | none => .fatal s ("no such label " ++ label)
  | some basename =>
      match fsLookup s.files origFile with
      | none =>
          .fatal s ("open " ++ origFile ++ ": no such file or directory")
      | some bs =>
          if (fsLookup s.files (archivePath (sha1Hex bs))).isSome then
            .fatal s ("file already used. Id: " ++ sha1Hex bs)
          else if confirm = false then .declined s
          else
            match compressOp s origFile (archivePath (sha1Hex bs)) with
            | .fatal s1 msg => .fatal s1 msg
            | .ok s1 =>
                match fsRename s1.files origFile
                    (newFileName basename
                      (1 + getLastVersionNumber s.versions label) origFile) with
                | none =>
                    .fatal s1
                      ("rename " ++ origFile ++ ": no such file or directory")
                | some fs2 =>
                    match handlePreviousVersion { s1 with files := fs2 } label with
                    | .fatal s3 msg => .fatal s3 msg
                    | .ok s3 warned =>
                        .ok { s3 with versions := s3.versions ++
                          [⟨date, time, label,
                            1 + getLastVersionNumber s.versions label,
                            fileBase origFile,
                            newFileName basename
                              (1 + getLastVersionNumber s.versions label)
                              origFile,
                            email, sha1Hex bs⟩] } warned

/-- `restoreLastVersion` (msmanager.go): find the last record for the label
(empty strings when there is none), then decompress its archive blob back to
its stored filename, dying on any decompression error. -/
def restoreLastVersion (s : State) (label : String) : OpResult :=
  let prev := scanPrev s.versions label
  decompressOp s (archivePath prev.1) prev.2

/-- `undoUpdate` (msmanager.go): parse every line of the versions table into
the same struct, so `lastEntry` ends as the last line's record (the zero
value when the table is empty).  A version number of 0 undoes a `track` by
dropping the last line of each table; otherwise remove the archive blob,
rename the working file back (rename errors ignored), drop the last versions
line, and for version numbers above 1 re-materialize the previous version. -/
def undoUpdate (s : State) : OpResult :=
  let lastEntry := s.versions.getLastD zeroVersion
  if lastEntry.versionNumber = 0 then
    .ok { s with labels := s.labels.dropLast, versions := s.versions.dropLast }
  else
    let s1 : State :=
      { s with files := fsRemove s.files (archivePath lastEntry.id) }
    let s2 : State :=
      { s1 with files := fsRenameLax s1.files lastEntry.file lastEntry.origFile }
    let s3 : State := { s2 with versions := s2.versions.dropLast }
    if 1 < lastEntry.versionNumber then restoreLastVersion s3 lastEntry.label
    else .ok s3

/-- `restoreFile` (msmanager.go): find the original filename of the first
record with the given id (exiting when there is none, before touching the
filesystem), then decompress the archive blob to `restored_<origFilename>`. -/
def restoreFile (s : State) (id : String) : OpResult :=
  match getOrigFilename s.versions id with
  | none =>
      .fatal s ("Can't find basename in versions history for " ++ id)
  | some orig => decompressOp s (archivePath id) ("restored_" ++ orig)

/-! ### Basic lemmas about the filesystem model -/

theorem fsLookup_fsWrite_self (fs : FS) (n : String) (b : Bytes) :
    fsLookup (fsWrite fs n b) n = some b := by
  induction fs with
  | nil => simp [fsWrite, fsLookup]
  | cons hd tl ih =>
      obtain ⟨hn, hb⟩ := hd
      by_cases h : hn = n <;> simp [fsWrite, fsLookup, h, ih]

theorem fsLookup_fsWrite_ne (fs : FS) (n m : String) (b : Bytes) (h : m ≠ n) :
    fsLookup (fsWrite fs n b) m = fsLookup fs m := by
  induction fs with
  | nil => simp [fsWrite, fsLookup, Ne.symm h]
  | cons hd tl ih =>
      obtain ⟨hn, hb⟩ := hd
      by_cases h2 : hn = n
      · subst h2
        simp [fsWrite, fsLookup, Ne.symm h]
      · by_cases h3 : hn = m <;> simp [fsWrite, fsLookup, h, h2, h3, ih]

theorem fsLookup_fsRemove_ne (fs : FS) (n m : String) (h : m ≠ n) :
    fsLookup (fsRemove fs n) m = fsLookup fs m := by
  induction fs with
  | nil => simp [fsRemove, fsLookup]
  | cons hd tl ih =>
      obtain ⟨hn, hb⟩ := hd
      by_cases h2 : hn = n
      · subst h2
        simp [fsRemove, fsLookup, Ne.symm h, ih]
      · by_cases h3 : hn = m <;> simp [fsRemove, fsLookup, h, h2, h3, ih]

theorem gunzipData_gzipData (bs : Bytes) : gunzipData (gzipData bs) = some bs :=
  rfl

/-! ### Claim C1 -/

/-- C1: when the digest of the input file already has an archive entry,
`updateLabel` dies with the duplicate-content error and mutates nothing: the
result carries the state unchanged, so the labels table, the versions table,
the archive directory and the input file are exactly as before the call. -/
theorem update_duplicate_content_aborts (s : State)
    (label origFile email : String) (confirm : Bool) (date time bn : String)
    (bs : Bytes)
    (hl : lookupLabel s.labels label = some bn)
    (hf : fsLookup s.files origFile = some bs)
    (ha : (fsLookup s.files (archivePath (sha1Hex bs))).isSome = true) :
    updateLabel s label origFile email confirm date time =
      .fatal s ("file already used. Id: " ++ sha1Hex bs) := by
  simp [updateLabel, hl, hf, ha]

/-! ### Claim C7 -/

/-- C7: when the label is registered and the content is not yet archived but
the confirmation signal is negative, `updateLabel` returns the declined
outcome (not an error) with the state unchanged: no archive entry, no table
append, no rename. -/
theorem update_declined_noop (s : State)
    (label origFile email date time bn : String) (bs : Bytes)
    (hl : lookupLabel s.labels label = some bn)
    (hf : fsLookup s.files origFile = some bs)
    (ha : fsLookup s.files (archivePath (sha1Hex bs)) = none) :
    updateLabel s label origFile email false date time = .declined s := by
  simp [updateLabel, hl, hf, ha]

/-! ### Claim C5 -/

/-- C5: the drift check of `handlePreviousVersion`: when the superseded
record's stored filename is the `none` sentinel the check is skipped; when
the recomputed digest of the previous working file matches the recorded
digest the file is removed (no warning); when the digests differ a warning is
emitted and the file is left in place. -/
theorem drift_check_behavior (s : State) (label pid pfile : String)
    (hp : scanPrev s.versions label = (pid, pfile)) :
    (pfile = "none" → handlePreviousVersion s label = .ok s false) ∧
    (∀ bs : Bytes, pfile ≠ "none" → fsLookup s.files pfile = some bs →
      sha1Hex bs = pid →
      handlePreviousVersion s label =
        .ok { s with files := fsRemove s.files pfile } false) ∧
    (∀ bs : Bytes, pfile ≠ "none" → fsLookup s.files pfile = some bs →
      sha1Hex bs ≠ pid →
      handlePreviousVersion s label = .ok s true) := by
  refine ⟨fun hn => ?_, fun bs hn hf hd => ?_, fun bs hn hf hd => ?_⟩
  · simp [handlePreviousVersion, hp, hn]
  · simp [handlePreviousVersion, hp, hn, hf, hd]
  · simp [handlePreviousVersion, hp, hn, hf, hd]

/-! ### Concrete sample states used by the witnesses -/

/-- Sample file contents. -/
def exampleBytes : Bytes := [1, 2]

/-- Sample repository right after `track doc base`, with an input file whose
content is already archived. -/
def exampleDupState : State :=
  ⟨[⟨"doc", "base"⟩], [⟨"d", "t", "doc", 0, "none", "none", "none", "none"⟩],
   [("draft.txt", exampleBytes),
    (archivePath (sha1Hex exampleBytes), gzipData exampleBytes)]⟩

/-- Sample repository right after `track doc base`, with a fresh input
file. -/
def exampleFreshState : State :=
  ⟨[⟨"doc", "base"⟩], [⟨"d", "t", "doc", 0, "none", "none", "none", "none"⟩],
   [("draft.txt", exampleBytes)]⟩

/-- Sample repository with one update recorded and the working file intact. -/
def exampleV1State : State :=
  ⟨[⟨"doc", "base"⟩],
   [⟨"d", "t", "doc", 0, "none", "none", "none", "none"⟩,
    ⟨"d", "t", "doc", 1, "draft.txt", "base_1_FD.txt", "a@x",
      sha1Hex exampleBytes⟩],
   [("base_1_FD.txt", exampleBytes)]⟩

/-- Sample repository with one update recorded whose working file has been
edited externally (its bytes no longer match the recorded digest). -/
def exampleDriftState : State :=
  ⟨[⟨"doc", "base"⟩],
   [⟨"d", "t", "doc", 0, "none", "none", "none", "none"⟩,
    ⟨"d", "t", "doc", 1, "draft.txt", "base_1_FD.txt", "a@x",
      sha1Hex exampleBytes⟩],
   [("base_1_FD.txt", [9])]⟩

/-- C1 witness: on a concrete repository whose archive already holds the
input file's digest, `updateLabel` dies with the duplicate error and the
unchanged state. -/
theorem update_duplicate_content_aborts_witness :
    updateLabel exampleDupState "doc" "draft.txt" "a@x" true "d2" "t2" =
      .fatal exampleDupState ("file already used. Id: " ++ sha1Hex exampleBytes) :=
  update_duplicate_content_aborts exampleDupState "doc" "draft.txt" "a@x" true
    "d2" "t2" "base" exampleBytes (by decide) (by decide) (by decide)

/-- C7 witness: on a concrete repository with valid preconditions, a negative
confirmation makes `updateLabel` return the declined outcome with the state
unchanged. -/
theorem update_declined_noop_witness :
    updateLabel exampleFreshState "doc" "draft.txt" "a@x" false "d2" "t2" =
      .declined exampleFreshState :=
  update_declined_noop exampleFreshState "doc" "draft.txt" "a@x" "d2" "t2"
    "base" exampleBytes (by decide) (by decide) (by decide)

/-- C5 witness: on a concrete matching working file the drift check removes
it without warning, and on a concrete drifted working file it warns and keeps
the file. -/
theorem drift_check_behavior_witness :
    handlePreviousVersion exampleV1State "doc" =
      .ok { exampleV1State with
        files := fsRemove exampleV1State.files "base_1_FD.txt" } false ∧
    handlePreviousVersion exampleDriftState "doc" =
      .ok exampleDriftState true :=
  ⟨(drift_check_behavior exampleV1State "doc" (sha1Hex exampleBytes)
      "base_1_FD.txt" (by decide)).2.1 exampleBytes (by decide) (by decide) rfl,
   (drift_check_behavior exampleDriftState "doc" (sha1Hex exampleBytes)
      "base_1_FD.txt" (by decide)).2.2 [9] (by decide) (by decide) (by decide)⟩

/-! ### Claim C3 -/

/-- Version numbers recorded for a label, in append order. -/
def labelNums (versions : List Version) (label : String) : List Nat :=
  (versions.filter (fun v => v.label == label)).map Version.versionNumber

theorem getLastVersionNumber_eq_foldl_max (versions : List Version)
    (label : String) :
    getLastVersionNumber versions label =
      (labelNums versions label).foldl max 0 := by
  unfold getLastVersionNumber labelNums
  suffices hgen : ∀ a : Nat,
      versions.foldl
        (fun acc e =>
          if e.label = label ∧ acc < e.versionNumber then e.versionNumber
          else acc) a =
      ((versions.filter (fun v => v.label == label)).map
        Version.versionNumber).foldl max a from hgen 0
  intro a
  induction versions generalizing a with
  | nil => rfl
  | cons v tl ih =>
      by_cases h : v.label = label
      · rw [List.foldl_cons, List.filter_cons_of_pos (by simp [h]),
          List.map_cons, List.foldl_cons, ih]
        congr 1
        simp only [h, eq_self_iff_true, true_and]
        split <;> omega
      · rw [List.foldl_cons, List.filter_cons_of_neg (by simp [h]),
          show (if v.label = label ∧ a < v.versionNumber then v.versionNumber
            else a) = a from by simp [h], ih]

theorem range_foldl_max (k : Nat) : (List.range (k + 1)).foldl max 0 = k := by
  induction k with
  | zero => rfl
  | succ n ih =>
      rw [List.range_succ, List.foldl_append, ih]
      simp only [List.foldl_cons, List.foldl_nil]
      omega

theorem handlePreviousVersion_ok_state (s : State) (label : String)
    (t : State) (w : Bool) (h : handlePreviousVersion s label = .ok t w) :
    t.versions = s.versions ∧ t.labels = s.labels := by
  simp only [handlePreviousVersion] at h
  split at h
  · cases h
    exact ⟨rfl, rfl⟩
  · split at h
    · simp at h
    · split at h
      · cases h
        exact ⟨rfl, rfl⟩
      · cases h
        exact ⟨rfl, rfl⟩

theorem compressOp_ok_state (s : State) (p q : String) (t : State)
    (h : compressOp s p q = .ok t) :
    t.versions = s.versions ∧ t.labels = s.labels := by
  unfold compressOp at h
  split at h
  · simp at h
  · cases h
    exact ⟨rfl, rfl⟩

theorem updateLabel_ok_versions (s : State)
    (label origFile email date time : String) (confirm : Bool)
    (s' : State) (w : Bool)
    (h : updateLabel s label origFile email confirm date time = .ok s' w) :
    ∃ rec : Version, s'.versions = s.versions ++ [rec] ∧ rec.label = label ∧
      rec.versionNumber = 1 + getLastVersionNumber s.versions label ∧
      s'.labels = s.labels := by
  unfold updateLabel at h
  split at h
  · simp at h
  · rename_i basename hbn
    split at h
    · simp at h
    · rename_i bs hbs
      split at h
      · simp at h
      · split at h
        · simp at h
        · split at h
          · simp at h
          · rename_i s1 hcomp
            split at h
            · simp at h
            · rename_i fs2 hren
              split at h
              · simp at h
              · rename_i s3 warned hprev
                injection h with h1 h2
                subst h1
                obtain ⟨hc1, hc2⟩ := compressOp_ok_state _ _ _ _ hcomp
                obtain ⟨hp1, hp2⟩ := handlePreviousVersion_ok_state _ _ _ _ hprev
                refine ⟨⟨date, time, label,
                    1 + getLastVersionNumber s.versions label,
                    fileBase origFile,
                    newFileName basename
                      (1 + getLastVersionNumber s.versions label) origFile,
                    email, sha1Hex bs⟩, ?_, rfl, rfl, ?_⟩
                · show s3.versions ++ [_] = s.versions ++ [_]
                  rw [hp1]
                  show s1.versions ++ [_] = s.versions ++ [_]
                  rw [hc1]
                · show s3.labels = s.labels
                  rw [hp2]
                  show s1.labels = s.labels
                  rw [hc2]

/-- C3: monotonic versioning.  Tracking a label never seen before seeds its
version-number sequence with `[0]`, and every successful `updateLabel`
appends exactly one record for the label whose version number is one greater
than the greatest version number previously recorded for it; hence a label
tracked and then updated `k` times carries numbers `0, 1, ..., k` in append
order. -/
theorem monotonic_versioning :
    (∀ (s : State) (label basename date time : String) (s' : State),
      labelNums s.versions label = [] →
      trackLabel s label basename date time = .ok s' →
      labelNums s'.versions label = List.range 1) ∧
    (∀ (s : State) (label origFile email date time : String) (confirm : Bool)
      (s' : State) (w : Bool) (k : Nat),
      updateLabel s label origFile email confirm date time = .ok s' w →
      (∃ rec : Version, s'.versions = s.versions ++ [rec] ∧
        rec.label = label ∧
        rec.versionNumber = 1 + (labelNums s.versions label).foldl max 0) ∧
      (labelNums s.versions label = List.range (k + 1) →
        labelNums s'.versions label = List.range (k + 2))) := by
  constructor
  · intro s label basename date time s' hnums htrack
    unfold trackLabel at htrack
    split at htrack
    · simp at htrack
    · injection htrack with h1
      subst h1
      have h2 : (s.versions.filter (fun v => v.label == label)).map
          Version.versionNumber = [] := hnums
      have h3 : s.versions.filter (fun v => v.label == label) = [] := by
        cases hfe : s.versions.filter (fun v => v.label == label) with
        | nil => rfl
        | cons x xs => rw [hfe] at h2; simp at h2
      simp [labelNums, List.filter_append, h3, List.range_succ]
  · intro s label origFile email date time confirm s' w k hup
    obtain ⟨rec, hv, hlab, hnum, _⟩ :=
      updateLabel_ok_versions s label origFile email date time confirm s' w hup
    constructor
    · exact ⟨rec, hv, hlab, by
        rw [hnum, getLastVersionNumber_eq_foldl_max]⟩
    · intro hrange
      have hmax : getLastVersionNumber s.versions label = k := by
        rw [getLastVersionNumber_eq_foldl_max]
        unfold labelNums
        rw [show (s.versions.filter (fun v => v.label == label)).map
            Version.versionNumber = List.range (k + 1) from hrange]
        exact range_foldl_max k
      have hcnt : rec.versionNumber = k + 1 := by
        rw [hnum, hmax]
        omega
      rw [hv]
      simp only [labelNums, List.filter_append, List.map_append]
      rw [show (List.filter (fun v => v.label == label) [rec]) = [rec] from by
        simp [hlab]]
      have hfront : (s.versions.filter (fun v => v.label == label)).map
          Version.versionNumber = List.range (k + 1) := hrange
      rw [hfront]
      have hr : List.range (k + 2) = List.range (k + 1) ++ [k + 1] :=
        List.range_succ (k + 1)
      rw [hr]
      simp only [List.map_cons, List.map_nil, hcnt]

/-- The repository state produced by a first successful update on
`exampleFreshState`. -/
def exampleV1Result : State :=
  ⟨[⟨"doc", "base"⟩],
   [⟨"d", "t", "doc", 0, "none", "none", "none", "none"⟩,
    ⟨"d2", "t2", "doc", 1, "draft.txt", "base_1_FD.txt", "a@x",
      sha1Hex exampleBytes⟩],
   [(archivePath (sha1Hex exampleBytes), gzipData exampleBytes),
    ("base_1_FD.txt", exampleBytes)]⟩

/-- C3 witness: a successful concrete update on a label with recorded numbers
`[0]` yields recorded numbers `[0, 1]`. -/
theorem monotonic_versioning_witness :
    labelNums exampleV1Result.versions "doc" = List.range 2 :=
  (monotonic_versioning.2 exampleFreshState "doc" "draft.txt" "a@x" "d2" "t2"
    true exampleV1Result false 0 (by decide)).2 (by decide)

/-! ### Claim C4 -/

/-- C4 counterexample: on a state with an empty version log `undoUpdate` does
not fail with a nothing-to-undo error — the zero-value record parsed from the
empty table has version number 0, so the undo-a-track branch runs and returns
normally; and when the labels table is non-empty its last line is removed, so
the labels table is not left unchanged either. -/
theorem undo_empty_log_counterexample :
    undoUpdate ⟨[⟨"a", "b"⟩], [], []⟩ = .ok ⟨[], [], []⟩ ∧
    undoUpdate ⟨[], [], []⟩ = .ok ⟨[], [], []⟩ :=
  ⟨rfl, rfl⟩

/-- C4 (amended): on every state whose version log is empty, `undoUpdate`
returns normally (no NothingToUndo failure exists in the code): it leaves the
versions table unchanged and drops the last line of the labels table — a
no-op exactly when the labels table is empty too, as it is in every reachable
empty-log state. -/
theorem undo_empty_log_behavior (s : State) (h : s.versions = []) :
    undoUpdate s = .ok { s with labels := s.labels.dropLast } := by
  obtain ⟨ls, vs, fs⟩ := s
  simp only at h
  subst h
  rfl

/-- C4 witness: the amended behavior at a concrete empty-log state. -/
theorem undo_empty_log_behavior_witness :
    undoUpdate ⟨[⟨"x", "y"⟩], [], [("f", [1])]⟩ =
      .ok ⟨[], [], [("f", [1])]⟩ :=
  undo_empty_log_behavior ⟨[⟨"x", "y"⟩], [], [("f", [1])]⟩ rfl

/-! ### Claim C6 -/

theorem lookupLabel_eq_none (ls : List LabelEntry) (l : String)
    (h : ∀ x ∈ ls, x.label ≠ l) : lookupLabel ls l = none := by
  unfold lookupLabel
  suffices hgen : ∀ acc : Option String, (∀ x ∈ ls, x.label ≠ l) →
      ls.foldl (fun acc e => if e.label = l then some e.basename else acc) acc
        = acc from hgen none h
  clear h
  induction ls with
  | nil => intro acc _; rfl
  | cons x xs ih =>
      intro acc hh
      rw [List.foldl_cons, if_neg (hh x (by simp))]
      exact ih acc fun y hy => hh y (List.mem_cons_of_mem x hy)

/-- C6: when the last version record has version number 0 (the most recent
operation was a `track`), `undoUpdate` removes exactly the last line of the
labels table and the last line of the versions table, and a lookup of the
undone label in the remaining labels table returns nothing (given that, as in
every reachable state, the undone label's registry line is the last one and
no earlier line carries that label). -/
theorem undo_track_spec (s : State) (vs : List Version) (e : Version)
    (ls : List LabelEntry) (en : LabelEntry)
    (hv : s.versions = vs ++ [e]) (h0 : e.versionNumber = 0)
    (hl : s.labels = ls ++ [en])
    (hfresh : ∀ x ∈ ls, x.label ≠ e.label) :
    undoUpdate s = .ok { s with labels := ls, versions := vs } ∧
    lookupLabel ls e.label = none := by
  constructor
  · unfold undoUpdate
    rw [hv, hl]
    simp [List.getLastD_concat, h0, List.dropLast_concat]
  · exact lookupLabel_eq_none ls e.label hfresh

/-- C6 witness: undoing a concrete freshly tracked label removes its registry
line and its v0 record, and its lookup afterwards finds nothing. -/
theorem undo_track_spec_witness :
    undoUpdate ⟨[⟨"doc", "base"⟩],
      [⟨"d", "t", "doc", 0, "none", "none", "none", "none"⟩], []⟩ =
      .ok ⟨[], [], []⟩ ∧
    lookupLabel [] "doc" = none :=
  undo_track_spec
    ⟨[⟨"doc", "base"⟩],
      [⟨"d", "t", "doc", 0, "none", "none", "none", "none"⟩], []⟩
    [] ⟨"d", "t", "doc", 0, "none", "none", "none", "none"⟩ [] ⟨"doc", "base"⟩
    rfl rfl rfl (by simp)

/-! ### Claim C2 -/

/-- C2: when the last version record `e` has version number at least 1 (the
most recent operation was an `update`), `undoUpdate` deletes the archive blob
for `e`'s digest, renames the working file `e.file` back to `e.origFile`,
and removes the last version record; when `e`'s version number exceeds 1 it
additionally re-creates the prior version's working file by decompressing
that prior record's archive entry to its stored filename. -/
theorem undo_update_spec (s : State) (vs : List Version) (e : Version)
    (hv : s.versions = vs ++ [e]) (h1 : 1 ≤ e.versionNumber) :
    (e.versionNumber = 1 →
      undoUpdate s = .ok { s with
        versions := vs,
        files := fsRenameLax (fsRemove s.files (archivePath e.id)) e.file
          e.origFile }) ∧
    (∀ (pid pfn : String) (pb : Bytes), 1 < e.versionNumber →
      scanPrev vs e.label = (pid, pfn) →
      fsLookup (fsRenameLax (fsRemove s.files (archivePath e.id)) e.file
        e.origFile) (archivePath pid) = some (gzipData pb) →
      undoUpdate s = .ok { s with
        versions := vs,
        files := fsWrite (fsRenameLax (fsRemove s.files (archivePath e.id))
          e.file e.origFile) pfn pb }) := by
  constructor
  · intro he
    unfold undoUpdate
    rw [hv]
    simp [List.getLastD_concat, he, List.dropLast_concat]
  · intro pid pfn pb hgt hscan hblob
    have h0 : ¬ e.versionNumber = 0 := by omega
    unfold undoUpdate
    rw [hv]
    simp only [List.getLastD_concat, h0, if_false, List.dropLast_concat]
    rw [if_pos hgt]
    unfold restoreLastVersion
    simp only [List.dropLast_concat]
    rw [hscan]
    unfold decompressOp
    rw [show fsLookup (fsRenameLax (fsRemove s.files (archivePath e.id))
        e.file e.origFile) (archivePath pid) = some (gzipData pb) from hblob]
    simp [gunzipData_gzipData]

/-- Sample v0 record for label `doc`. -/
def exampleRec0 : Version := ⟨"d", "t", "doc", 0, "none", "none", "none", "none"⟩

/-- Sample v1 record for label `doc`. -/
def exampleRec1 : Version :=
  ⟨"d2", "t2", "doc", 1, "draft.txt", "base_1_FD.txt", "a@x",
    sha1Hex exampleBytes⟩

/-- Sample v2 record for label `doc`. -/
def exampleRec2 : Version :=
  ⟨"d3", "t3", "doc", 2, "b.txt", "base_2_FD.txt", "a@x", sha1Hex [3, 4]⟩

/-- Sample repository with two updates recorded, both archive blobs present
and the current working file on disk. -/
def exampleV2State : State :=
  ⟨[⟨"doc", "base"⟩], [exampleRec0, exampleRec1, exampleRec2],
   [("base_2_FD.txt", [3, 4]),
    (archivePath (sha1Hex [3, 4]), gzipData [3, 4]),
    (archivePath (sha1Hex exampleBytes), gzipData exampleBytes)]⟩

/-- C2 witness: undoing the second update of a concrete repository removes
its blob, renames the working file back, drops the last record, and
re-creates version 1's working file from its archive entry. -/
theorem undo_update_spec_witness :
    undoUpdate exampleV2State = .ok { exampleV2State with
      versions := [exampleRec0, exampleRec1],
      files := fsWrite (fsRenameLax (fsRemove exampleV2State.files
          (archivePath (sha1Hex [3, 4]))) "base_2_FD.txt" "b.txt")
        "base_1_FD.txt" exampleBytes } :=
  (undo_update_spec exampleV2State [exampleRec0, exampleRec1] exampleRec2 rfl
    (by decide)).2 (sha1Hex exampleBytes) "base_1_FD.txt" exampleBytes
    (by decide) (by decide) (by decide)

/-! ### Claim C8 -/

/-- C8: decompress inverts compress — compressing an existing file into an
archive blob and decompressing that blob to another path reproduces the
original bytes exactly.  (The distinctness hypotheses rule out path aliasing
between the file handles, which the byte-level model does not represent.) -/
theorem compress_decompress_roundtrip (s s1 : State) (f out g : String)
    (bs : Bytes) (hf : fsLookup s.files f = some bs) (hfo : f ≠ out)
    (hog : out ≠ g) (hc : compressOp s f out = .ok s1) :
    decompressOp s1 out g =
      .ok { s1 with files := fsWrite s1.files g bs } ∧
    fsLookup (fsWrite s1.files g bs) g = some bs := by
  have hs1 : s1 = { s with files := fsWrite s.files out (gzipData bs) } := by
    unfold compressOp at hc
    rw [hf] at hc
    injection hc with h1
    exact h1.symm
  subst hs1
  constructor
  · simp [decompressOp, fsLookup_fsWrite_self, gunzipData_gzipData]
  · exact fsLookup_fsWrite_self _ _ _

/-- The state produced by compressing the sample input file into `c.gz`. -/
def exampleCompressedState : State :=
  { exampleFreshState with
    files := fsWrite exampleFreshState.files "c.gz" (gzipData exampleBytes) }

/-- C8 witness: a concrete compress-then-decompress round trip reproduces the
sample bytes. -/
theorem compress_decompress_roundtrip_witness :
    decompressOp exampleCompressedState "c.gz" "out.txt" =
      .ok { exampleCompressedState with
        files := fsWrite exampleCompressedState.files "out.txt" exampleBytes } ∧
    fsLookup (fsWrite exampleCompressedState.files "out.txt" exampleBytes)
      "out.txt" = some exampleBytes :=
  compress_decompress_roundtrip exampleFreshState exampleCompressedState
    "draft.txt" "c.gz" "out.txt" exampleBytes (by decide) (by decide)
    (by decide) (by decide)

/-! ### Claim C9 -/

theorem getOrigFilename_eq_none (vs : List Version) (id : String)
    (h : ∀ v ∈ vs, v.id ≠ id) : getOrigFilename vs id = none := by
  induction vs with
  | nil => rfl
  | cons v rest ih =>
      rw [getOrigFilename, if_neg (h v (by simp))]
      exact ih fun y hy => h y (List.mem_cons_of_mem v hy)

/-- C9: `restoreFile` fails before any mutation when no version record
carries the digest; it fails before any mutation when a record exists but the
archive blob is absent; and on success (record found, well-formed blob
present) its only filesystem effect is writing the decompressed bytes to
`restored_<originalFilename>`, where the original filename comes from the
first record with that digest — the tables and every other file are left
unchanged. -/
theorem restore_frame_spec (s : State) (id : String) :
    ((∀ v ∈ s.versions, v.id ≠ id) →
      restoreFile s id =
        .fatal s ("Can't find basename in versions history for " ++ id)) ∧
    (∀ orig : String, getOrigFilename s.versions id = some orig →
      fsLookup s.files (archivePath id) = none →
      restoreFile s id =
        .fatal s ("open " ++ archivePath id ++ ": no such file or directory")) ∧
    (∀ (orig : String) (bs : Bytes),
      getOrigFilename s.versions id = some orig →
      fsLookup s.files (archivePath id) = some (gzipData bs) →
      restoreFile s id =
        .ok { s with files := fsWrite s.files ("restored_" ++ orig) bs }) := by
  refine ⟨fun h => ?_, fun orig h1 h2 => ?_, fun orig bs h1 h2 => ?_⟩
  · simp [restoreFile, getOrigFilename_eq_none s.versions id h]
  · simp [restoreFile, decompressOp, h1, h2]
  · simp [restoreFile, decompressOp, h1, h2, gunzipData_gzipData]

/-- C9 witness: restoring the archived sample digest on a concrete repository
writes only `restored_draft.txt`, and restoring an unknown digest fails with
the state unchanged. -/
theorem restore_frame_spec_witness :
    restoreFile exampleV1Result (sha1Hex exampleBytes) =
      .ok { exampleV1Result with
        files := fsWrite exampleV1Result.files ("restored_" ++ "draft.txt")
          exampleBytes } ∧
    restoreFile exampleFreshState "zz" =
      .fatal exampleFreshState
        ("Can't find basename in versions history for " ++ "zz") :=
  ⟨(restore_frame_spec exampleV1Result (sha1Hex exampleBytes)).2.2 "draft.txt"
      exampleBytes (by decide) (by decide),
   (restore_frame_spec exampleFreshState "zz").1 (by decide)⟩

/-! ### Claim C10 -/

/-- C10: when the label's previous working file (stored filename not the
`none` sentinel) is missing from disk at drift-check time, `updateLabel` dies
at that point — after the new content has been archived and the input file
renamed, but before the new record is appended — so the fatal state holds the
new archive entry while its versions table is still the old one.  The
distinctness hypotheses keep the four paths involved apart, as they are in
every real run. -/
theorem update_prev_missing_fatal (s : State)
    (label origFile email date time bn pid pfile : String) (bs : Bytes)
    (hl : lookupLabel s.labels label = some bn)
    (hf : fsLookup s.files origFile = some bs)
    (ha : fsLookup s.files (archivePath (sha1Hex bs)) = none)
    (hp : scanPrev s.versions label = (pid, pfile))
    (hpn : pfile ≠ "none")
    (hmiss : fsLookup s.files pfile = none)
    (hd1 : pfile ≠ archivePath (sha1Hex bs))
    (hd2 : pfile ≠
      newFileName bn (1 + getLastVersionNumber s.versions label) origFile)
    (hd3 : pfile ≠ origFile)
    (hd4 : origFile ≠ archivePath (sha1Hex bs))
    (hd5 : newFileName bn (1 + getLastVersionNumber s.versions label) origFile
      ≠ archivePath (sha1Hex bs)) :
    updateLabel s label origFile email true date time =
      .fatal { s with
        files := fsWrite
          (fsRemove (fsWrite s.files (archivePath (sha1Hex bs)) (gzipData bs))
            origFile)
          (newFileName bn (1 + getLastVersionNumber s.versions label) origFile)
          bs }
        ("open " ++ pfile ++ ": no such file or directory") ∧
    fsLookup
      (fsWrite
        (fsRemove (fsWrite s.files (archivePath (sha1Hex bs)) (gzipData bs))
          origFile)
        (newFileName bn (1 + getLastVersionNumber s.versions label) origFile)
        bs)
      (archivePath (sha1Hex bs)) = some (gzipData bs) := by
  have hren : fsLookup (fsWrite s.files (archivePath (sha1Hex bs))
      (gzipData bs)) origFile = some bs := by
    rw [fsLookup_fsWrite_ne _ _ _ _ hd4]
    exact hf
  have hpf : fsLookup
      (fsWrite
        (fsRemove (fsWrite s.files (archivePath (sha1Hex bs)) (gzipData bs))
          origFile)
        (newFileName bn (1 + getLastVersionNumber s.versions label) origFile)
        bs)
      pfile = none := by
    rw [fsLookup_fsWrite_ne _ _ _ _ hd2, fsLookup_fsRemove_ne _ _ _ hd3,
      fsLookup_fsWrite_ne _ _ _ _ hd1]
    exact hmiss
  constructor
  · simp only [updateLabel, hl, hf, ha, Option.isSome_none,
      Bool.false_eq_true, if_false, compressOp, fsRename, hren,
      handlePreviousVersion, hp, hpn, hpf]
    simp [hpn, hpf]
  · rw [fsLookup_fsWrite_ne _ _ _ _ (Ne.symm hd5),
      fsLookup_fsRemove_ne _ _ _ (Ne.symm hd4), fsLookup_fsWrite_self]

/-- Sample repository whose version-1 working file has been deleted from
disk, with a fresh input file for the next update. -/
def exampleLostPrevState : State :=
  ⟨[⟨"doc", "base"⟩], [exampleRec0, exampleRec1], [("b2.txt", [3, 4])]⟩

/-- C10 witness: a concrete update whose previous working file is missing
dies after archiving and renaming, leaving the archive entry with no matching
version record. -/
theorem update_prev_missing_fatal_witness :
    updateLabel exampleLostPrevState "doc" "b2.txt" "a@x" true "d3" "t3" =
      .fatal { exampleLostPrevState with
        files := fsWrite
          (fsRemove (fsWrite exampleLostPrevState.files
              (archivePath (sha1Hex [3, 4])) (gzipData [3, 4])) "b2.txt")
          (newFileName "base"
            (1 + getLastVersionNumber exampleLostPrevState.versions "doc")
            "b2.txt")
          [3, 4] }
        ("open " ++ "base_1_FD.txt" ++ ": no such file or directory") ∧
    fsLookup
      (fsWrite
        (fsRemove (fsWrite exampleLostPrevState.files
            (archivePath (sha1Hex [3, 4])) (gzipData [3, 4])) "b2.txt")
        (newFileName "base"
          (1 + getLastVersionNumber exampleLostPrevState.versions "doc")
          "b2.txt")
        [3, 4])
      (archivePath (sha1Hex [3, 4])) = some (gzipData [3, 4]) :=
  update_prev_missing_fatal exampleLostPrevState "doc" "b2.txt" "a@x" "d3"
    "t3" "base" (sha1Hex exampleBytes) "base_1_FD.txt" [3, 4] (by decide)
    (by decide) (by decide) (by decide) (by decide) (by decide) (by decide)
    (by decide) (by decide) (by decide) (by decide)

end Msmanager
